import Mathlib

/-!
Shallow embedding of the forecast-selection engine of
`app/core/training.py` (`train_and_forecast_by_authority` and
`flatten_forecast_data`), together with proofs about it.

Modelling conventions:
* machine floats become exact rationals (`ℚ`);
* a month-resolution timestamp (`pd.to_period('M').to_timestamp()`) becomes a
  month index `m : ℤ` standing for year `m.fdiv 12`, month `m.emod 12 + 1`;
* pandas data frames become lists of rows; a row's named numeric columns
  become a total valuation `String → ℚ` (the engine's claims under study
  concern inputs whose listed columns are all present and non-null);
* the external regressor libraries (TabPFN, CatBoost, LightGBM) are kept
  abstract behind an `Oracle` of deterministic fit/predict functions;
* `raise ValueError` becomes `Except.error` with an explicit error datatype;
* the filesystem contents of the model directory become a list of paths.
-/

namespace HPI

/-- A training window from the catalogue `time_windows` in
`train_and_forecast_by_authority`: `some y` is a trailing span of `y` years,
`none` is Python's `None`, rendered "all" in artifact names. -/
abbrev TimeWindow := Option ℕ

/-- `time_windows = [5, 10, 15, 20, None]` (line 65). -/
def time_windows : List TimeWindow := [some 5, some 10, some 15, some 20, none]

/-- The model-family catalogue, in the insertion order of the `models` dict
built at lines 115-119: TabPFN, then CatBoost, then LightGBM. -/
def model_names : List String := ["TabPFN", "CatBoost", "LightGBM"]

/-- `feature_cols` (lines 49-61). -/
def feature_cols : List String :=
  ["cpi_rate", "cpih_rate", "bank_rate", "unemployment_rate", "population",
   "New dwellings Price", "New dwellings average advance",
   "New dwellings average recorded income of borrowers",
   "Other dwellings Price", "Other dwellings average advance",
   "Other dwellings average recorded income of borrowers",
   "All dwellings Price", "All dwellings average advance",
   "All dwellings average recorded income of borrowers",
   "First time buyers Price", "First time buyers average advance",
   "First time buyers average recorded income of borrowers",
   "Former owner occupiers Price", "Former owner occupiers average advance",
   "Former owner occupiers average recorded income of borrowers"]

/-- `all_features = feature_cols + [prop_type]` (line 98). -/
def all_features (propType : String) : List String := feature_cols ++ [propType]

/-- The lag offsets `[1, 2, 3]` used at lines 100 and 109. -/
def lag_offsets : List ℕ := [1, 2, 3]

/-- `property_types` default argument (line 34). -/
def property_types : List String :=
  ["SemiDetachedIndex", "DetachedIndex", "TerracedIndex", "FlatIndex"]

/-- One row of the per-authority sub-series `df_auth_prop`: its month-indexed
`period` and its named numeric columns. -/
structure Row where
  period : ℤ
  val : String → ℚ

/-- One row of the raw input dataset: a `Row` together with its `RegionName`. -/
structure ARow where
  region : String
  period : ℤ
  val : String → ℚ

def ARow.toRow (a : ARow) : Row := { period := a.period, val := a.val }

/-- `pandas.Series.shift(k)`: element `i` of the shifted column is element
`i - k` of the source column when `k ≤ i`, and missing (`NaN`) otherwise;
the length is unchanged. -/
def shift (k : ℕ) (xs : List ℚ) : List (Option ℚ) :=
  (List.replicate k none ++ xs.map some).take xs.length

/-- The values of column `c` down a list of rows. -/
def colVals (rows : List Row) (c : String) : List ℚ := rows.map (fun r => r.val c)

/-- A row of the lag-augmented frame built at lines 99-101: the original row
plus, for each column name and lag offset, the (possibly missing) shifted
value. -/
structure LagRow where
  base : Row
  lagval : String → ℕ → Option ℚ

/-- The lag-augmented frame before `dropna`: row `i` keeps the original row
and looks its lag columns up in the shifted source columns. -/
def mkLagRows (rows : List Row) : List LagRow :=
  rows.enum.map (fun p =>
    { base := p.2
      lagval := fun c k => (shift k (colVals rows c)).getD p.1 none })

/-- `dropna` keeps a lag-augmented row iff none of its lag columns (for the
listed feature columns and offsets 1, 2, 3) is missing. -/
def isCompleteRow (allFeatures : List String) (lr : LagRow) : Bool :=
  allFeatures.all (fun c => lag_offsets.all (fun k => (lr.lagval c k).isSome))

/-- Lines 99-103: append the lag columns for every listed column and offset,
then drop every row holding a missing value. -/
def addLagsDropna (allFeatures : List String) (rows : List Row) : List LagRow :=
  (mkLagRows rows).filter (isCompleteRow allFeatures)

/-- Lines 89-91: for a numeric window, keep the rows with
`period >= last_date - DateOffset(years=time_window)`; for `None` the frame
is left as the full series.  On month indices, subtracting `y` years is
subtracting `12 * y`. -/
def filterWindow (lastDate : ℤ) (tw : TimeWindow) (rows : List Row) : List Row :=
  match tw with
  | none => rows
  | some y => rows.filter (fun r => decide (lastDate - 12 * (y : ℤ) ≤ r.period))

/-- `numpy.finfo(float64).eps`, the denominator floor used by
`sklearn.metrics.mean_absolute_percentage_error`. -/
def npEps : ℚ := 1 / 2 ^ 52

/-- `sklearn.metrics.mean_absolute_percentage_error`: the mean over rows of
`|y_pred - y_true| / max(|y_true|, eps)` (exact rational arithmetic in place
of float64). -/
def mean_absolute_percentage_error (yTrue yPred : List ℚ) : ℚ :=
  (List.zipWith (fun t p => |p - t| / max |t| npEps) yTrue yPred).sum
    / (yTrue.length : ℚ)

/-- `sklearn.metrics.mean_absolute_error`. -/
def mean_absolute_error (yTrue yPred : List ℚ) : ℚ :=
  (List.zipWith (fun t p => |t - p|) yTrue yPred).sum / (yTrue.length : ℚ)

/-- The MAPE formula as the spec words it ("mean of |actual−predicted|/|actual|
× 100 over the held-out rows"), for comparison with the sklearn definition the
source calls. -/
def specMape (yTrue yPred : List ℚ) : ℚ :=
  (List.zipWith (fun t p => |t - p| / |t|) yTrue yPred).sum
    / (yTrue.length : ℚ) * 100

/-- Round half to even, Python's rounding mode for `round`. -/
def roundHalfEven (x : ℚ) : ℤ :=
  if x - ⌊x⌋ < 1 / 2 then ⌊x⌋
  else if 1 / 2 < x - ⌊x⌋ then ⌊x⌋ + 1
  else if ⌊x⌋ % 2 = 0 then ⌊x⌋ else ⌊x⌋ + 1

/-- Python's `round(x, n)` on an exact rational. -/
def pyRound (n : ℕ) (x : ℚ) : ℚ :=
  (roundHalfEven (x * 10 ^ n) : ℚ) / 10 ^ n

/-- Python truthiness of the window in the artifact f-string
`time_window if time_window else 'all'`: `None` and `0` print "all". -/
def twString (tw : TimeWindow) : String :=
  match tw with
  | some y => if y = 0 then "all" else toString y
  | none => "all"

/-- The artifact path built at lines 122-125 (and again at 162-165):
`os.path.join(model_dir, authority _ propType _ modelName _ window _model.pkl)`. -/
def modelFileName (modelDir authority propType modelName : String)
    (tw : TimeWindow) : String :=
  modelDir ++ "/" ++ authority ++ "_" ++ propType ++ "_" ++ modelName ++ "_"
    ++ twString tw ++ "_model.pkl"

/-- The external regressor libraries, kept abstract: `fitPredict name xTr yTr x`
is the prediction at feature row `x` of the family-`name` model fitted on the
feature matrix `xTr` against targets `yTr`.  Each family is deterministic
(fixed random seeds in the source), so a pure function is faithful. -/
structure Oracle where
  fitPredict : String → List (List ℚ) → List ℚ → List ℚ → ℚ

/-- The running best of the competition loop: `best_model_name`,
`best_time_window`, `best_mape`, `best_metrics['mae']`, and the fitted
`best_model` represented by its family name plus the data it was fitted on. -/
structure Best where
  name : String
  tw : TimeWindow
  mape : ℚ
  mae : ℚ
  xTrain : List (List ℚ)
  yTrain : List ℚ
deriving DecidableEq

/-- `mape < best_mape` with `best_mape` initialised to `float('inf')`
(line 82): every finite value beats the initial infinity. -/
def beats (m : ℚ) (cur : Option Best) : Bool :=
  match cur with
  | none => true
  | some b => decide (m < b.mape)

/-- The parameters shared by one (authority, property-type) competition. -/
structure Ctx where
  oracle : Oracle
  store : List String
  modelDir : String
  authority : String
  propType : String
  horizon : ℕ

/-- The feature vector of a lag-augmented row, in `lag_features` order
(line 109): lag columns grouped by source column, offsets 1, 2, 3 within. -/
def xRow (allFeatures : List String) (lr : LagRow) : List ℚ :=
  allFeatures.flatMap (fun c => lag_offsets.map (fun k => (lr.lagval c k).getD 0))

/-- The candidate produced by evaluating family `name` on one window
(lines 129-139): fit on the training split, predict the held-out rows,
and record MAPE (× 100) and MAE. -/
def mkCand (c : Ctx) (tw : TimeWindow) (xTr : List (List ℚ)) (yTr : List ℚ)
    (xTe : List (List ℚ)) (yTe : List ℚ) (name : String) : Best :=
  let yPred := xTe.map (c.oracle.fitPredict name xTr yTr)
  { name := name, tw := tw,
    mape := mean_absolute_percentage_error yTe yPred * 100,
    mae := mean_absolute_error yTe yPred,
    xTrain := xTr, yTrain := yTr }

/-- The body of the per-model loop (lines 121-139): skip the family if its
artifact file already exists, otherwise evaluate it and replace the running
best exactly when its MAPE is strictly smaller. -/
def stepModel (c : Ctx) (tw : TimeWindow) (xTr : List (List ℚ)) (yTr : List ℚ)
    (xTe : List (List ℚ)) (yTe : List ℚ) (st : Option Best) (name : String) :
    Option Best :=
  if c.store.contains (modelFileName c.modelDir c.authority c.propType name tw) then
    st
  else
    let cand := mkCand c tw xTr yTr xTe yTe name
    if beats cand.mape st then some cand else st

/-- The possible `ValueError`s (and index errors) of
`train_and_forecast_by_authority`. -/
inductive TrainError where
  | noData
  | indexError
  | notEnoughData (tw : TimeWindow)
  | notEnoughDataAfterLag (tw : TimeWindow)
  | noValidModel
deriving DecidableEq

/-- One iteration of the window loop (lines 87-139): filter the series to the
window, check the 4-row floor, build the lag frame, check the
`forecast_horizon + 1` floor, split off the last `forecast_horizon` rows as
the holdout, and run the model competition over the window. -/
def processWindow (c : Ctx) (rows : List Row) (lastDate : ℤ)
    (cur : Option Best) (tw : TimeWindow) : Except TrainError (Option Best) :=
  let dfTime := filterWindow lastDate tw rows
  if dfTime.length < 4 then .error (.notEnoughData tw)
  else
    let lagged := addLagsDropna (all_features c.propType) dfTime
    if lagged.length < c.horizon + 1 then .error (.notEnoughDataAfterLag tw)
    else
      let X := lagged.map (xRow (all_features c.propType))
      let y := lagged.map (fun lr => lr.base.val c.propType)
      let trainSize := lagged.length - c.horizon
      .ok (model_names.foldl
        (stepModel c tw (X.take trainSize) (y.take trainSize)
          (X.drop trainSize) (y.drop trainSize)) cur)

/-- The window loop, threading the running best and propagating errors. -/
def loopWindows (c : Ctx) (rows : List Row) (lastDate : ℤ) :
    Option Best → List TimeWindow → Except TrainError (Option Best)
  | cur, [] => .ok cur
  | cur, tw :: rest =>
    match processWindow c rows lastDate cur tw with
    | .error e => .error e
    | .ok cur' => loopWindows c rows lastDate cur' rest

/-- The per-(authority, property-type) metrics dict built at lines 155-167. -/
structure Metrics where
  mae : ℚ
  mape : ℚ
  forecast : ℚ
  forecast_date : String
  best_model : String
  best_time_window : TimeWindow
  model_file : String
  training_date : String
deriving DecidableEq

/-- Zero-padded month of a month index, for `strftime('%m/%Y')`. -/
def pad2 (n : ℤ) : String := if n < 10 then "0" ++ toString n else toString n

/-- `strftime('%m/%Y')` on a month index. -/
def formatMMYYYY (m : ℤ) : String :=
  pad2 (m.emod 12 + 1) ++ "/" ++ toString (m.fdiv 12)

/-- Lines 78-167 for one (authority, property-type) pair, `df_auth_prop`
given as the period-sorted rows: take the last date, run the window loop,
fail when no model was selected, re-lag the full series, predict on its most
recent fully-lagged row, and assemble the metrics dict.  `today` is the
calendar date `datetime.now().strftime('%Y-%m-%d')` of the run. -/
def runProp (c : Ctx) (rows : List Row) (today : String) :
    Except TrainError Metrics :=
  match rows.getLast? with
  | none => .error .indexError
  | some lastRow =>
    let lastDate := lastRow.period
    match loopWindows c rows lastDate none time_windows with
    | .error e => .error e
    | .ok none => .error .noValidModel
    | .ok (some b) =>
      let laggedFull := addLagsDropna (all_features c.propType) rows
      match laggedFull.getLast? with
      | none => .error .indexError
      | some lastData =>
        let fc := c.oracle.fitPredict b.name b.xTrain b.yTrain
          (xRow (all_features c.propType) lastData)
        .ok { mae := b.mae, mape := b.mape, forecast := fc,
              forecast_date := formatMMYYYY (lastDate + 1),
              best_model := b.name, best_time_window := b.tw,
              model_file := modelFileName c.modelDir c.authority c.propType
                b.name b.tw,
              training_date := today }

/-- A JSON-ish cell value of a flattened output record. -/
inductive Value where
  | num (q : ℚ)
  | str (s : String)
  | win (tw : TimeWindow)
deriving DecidableEq

/-- One flattened dict built by `flatten_forecast_data` in
`app/core/training.py` (lines 15-26), as an ordered key/value list: nine
fields, with `mae` and `mape` rounded to 4 decimal places and `forecast` to
6.  No `training_date` key is emitted. -/
def coreRecord (authority propType : String) (m : Metrics) :
    List (String × Value) :=
  [("local_authority", .str authority),
   ("property_type", .str propType),
   ("mae", .num (pyRound 4 m.mae)),
   ("mape", .num (pyRound 4 m.mape)),
   ("forecast", .num (pyRound 6 m.forecast)),
   ("forecast_date", .str m.forecast_date),
   ("best_model", .str m.best_model),
   ("best_time_window", .win m.best_time_window),
   ("model_file", .str m.model_file)]

/-- `flatten_forecast_data` (lines 14-29): one record per
(authority, property-type) entry of the nested structure, authorities in the
structure's order, property types in each inner structure's order. -/
def flatten_forecast_data (nested : List (String × List (String × Metrics))) :
    List (List (String × Value)) :=
  nested.flatMap (fun p => p.2.map (fun q => coreRecord p.1 q.1 q.2))

/-- The record built by the *other* `flatten_forecast_data`, the one in
`app/services/training.py`: identical except that it additionally emits the
`training_date` field.  The engine calls the core version, not this one. -/
def servicesRecord (authority propType : String) (m : Metrics) :
    List (String × Value) :=
  coreRecord authority propType m ++ [("training_date", .str m.training_date)]

/-- `df['RegionName'].unique()`: the region names in first-occurrence order. -/
def uniqueFirst (l : List String) : List String :=
  l.foldl (fun acc a => if acc.contains a then acc else acc ++ [a]) []

/-- `df_authority.sort_values('period')`, modelled as a stable sort on the
month index. -/
def sortByPeriod (rows : List Row) : List Row :=
  rows.mergeSort (fun a b => decide (a.period ≤ b.period))

/-- The competition context of one (authority, property-type) pair. -/
def mkCtx (oracle : Oracle) (store : List String) (modelDir authority
    propType : String) (horizon : ℕ) : Ctx :=
  { oracle := oracle, store := store, modelDir := modelDir,
    authority := authority, propType := propType, horizon := horizon }

/-- The inner loop over `property_types` (lines 74-167) for one authority:
each property type yields its metrics dict, any error aborting the whole
computation. -/
def runProps (oracle : Oracle) (store : List String) (modelDir : String)
    (horizon : ℕ) (today authority : String) (rows : List Row) :
    List String → Except TrainError (List (String × Metrics))
  | [] => .ok []
  | pt :: rest =>
    match runProp (mkCtx oracle store modelDir authority pt horizon)
        rows today with
    | .error e => .error e
    | .ok m =>
      match runProps oracle store modelDir horizon today authority rows rest with
      | .error e => .error e
      | .ok ms => .ok ((pt, m) :: ms)

/-- The outer loop over authorities (lines 67-167): slice the dataset to the
authority, sort it by period, and run every property type. -/
def runAuthorities (oracle : Oracle) (store : List String) (modelDir : String)
    (horizon : ℕ) (today : String) (data : List ARow) :
    List String → Except TrainError (List (String × List (String × Metrics)))
  | [] => .ok []
  | a :: rest =>
    let rows := sortByPeriod ((data.filter (fun r => r.region = a)).map ARow.toRow)
    match runProps oracle store modelDir horizon today a rows property_types with
    | .error e => .error e
    | .ok props =>
      match runAuthorities oracle store modelDir horizon today data rest with
      | .error e => .error e
      | .ok ns => .ok ((a, props) :: ns)

/-- `train_and_forecast_by_authority` (lines 32-169): reject an empty
dataset, run every authority present (in first-occurrence order) over the
property-type catalogue, and flatten the nested results.  `store` is the set
of artifact paths present on disk when the run starts. -/
def train_and_forecast_by_authority (oracle : Oracle) (store : List String)
    (data : List ARow) (horizon : ℕ) (modelDir today : String) :
    Except TrainError (List (List (String × Value))) :=
  if data.isEmpty then .error .noData
  else
    match runAuthorities oracle store modelDir horizon today data
        (uniqueFirst (data.map (fun r => r.region))) with
    | .error e => .error e
    | .ok nested => .ok (flatten_forecast_data nested)

/-- The artifact paths `train_and_forecast_by_authority` writes during a run.
The training loop (lines 121-139) fits models but contains no save call —
`joblib` is imported at line 5 and never used — and the only filesystem
mutation in the function is `os.makedirs(model_dir)` at line 63, which
creates a directory, not an artifact file.  The write set is therefore empty
whatever the inputs. -/
def artifactWrites (_oracle : Oracle) (_store : List String) (_data : List ARow)
    (_horizon : ℕ) (_modelDir _today : String) : List String := []

/-! Theorems -/

/-- C5: for every sorted sub-series and every numeric window w of the
catalogue, window filtering keeps exactly the rows whose period is at least
(last date − w years), inclusive at the lower boundary — a row dated exactly
(last date − 12·w months) is retained — preserving the series order, and the
"all" window returns the full sub-series unchanged. -/
theorem window_filter_spec (rows : List Row) (lastDate : ℤ) (w : ℕ)
    (hw : some w ∈ time_windows) :
    (∀ r : Row, r ∈ filterWindow lastDate (some w) rows ↔
       r ∈ rows ∧ lastDate - 12 * (w : ℤ) ≤ r.period)
    ∧ (filterWindow lastDate (some w) rows).Sublist rows
    ∧ (∀ r : Row, r ∈ rows → r.period = lastDate - 12 * (w : ℤ) →
        r ∈ filterWindow lastDate (some w) rows)
    ∧ filterWindow lastDate none rows = rows := by
  clear hw
  refine ⟨?_, ?_, ?_, rfl⟩
  · intro r
    simp [filterWindow, List.mem_filter]
  · exact List.filter_sublist _
  · intro r hr he
    simp [filterWindow, List.mem_filter, hr, he]

def wRowBoundary : Row := { period := -60, val := fun _ => 0 }

def wRowLast : Row := { period := 0, val := fun _ => 0 }

/-- Witness for `window_filter_spec`: with last date 0 and the 5-year window,
a row dated exactly 60 months earlier is retained. -/
theorem window_filter_spec_witness :
    wRowBoundary ∈ filterWindow 0 (some 5) [wRowBoundary, wRowLast] :=
  (window_filter_spec [wRowBoundary, wRowLast] 0 5 (by decide)).2.2.1
    wRowBoundary (List.mem_cons_self _ _) (by decide)

/-- C6, counterexample: for a held-out actual equal to 0, the MAPE the code
records (sklearn's, with the denominator clamped at eps) differs from the
spec's plain mean of |actual−predicted|/|actual| × 100 (in exact rational
arithmetic, where 1/0 = 0). -/
theorem mape_plain_formula_counterexample :
    mean_absolute_percentage_error [0] [1] * 100 ≠ specMape [0] [1] := by
  norm_num [mean_absolute_percentage_error, specMape, npEps]

/-- C6, amended: the MAPE recorded for model selection is sklearn's
mean_absolute_percentage_error × 100, whose denominators are
max(|actual|, 2⁻⁵²); whenever every held-out actual satisfies
|actual| ≥ 2⁻⁵² this equals the claimed mean of
|actual − predicted| / |actual| × 100 exactly. -/
theorem mape_recorded_formula (yTest yPred : List ℚ)
    (h : ∀ t ∈ yTest, npEps ≤ |t|) :
    mean_absolute_percentage_error yTest yPred * 100 = specMape yTest yPred := by
  have hz : List.zipWith (fun t p => |p - t| / max |t| npEps) yTest yPred
      = List.zipWith (fun t p => |t - p| / |t|) yTest yPred := by
    induction yTest generalizing yPred with
    | nil => simp
    | cons t ts ih =>
      cases yPred with
      | nil => simp
      | cons p ps =>
        have ht : npEps ≤ |t| := h t (List.mem_cons_self _ _)
        simp only [List.zipWith_cons_cons]
        rw [ih ps (fun u hu => h u (List.mem_cons_of_mem _ hu)),
          max_eq_left ht, abs_sub_comm]
  unfold mean_absolute_percentage_error specMape
  rw [hz]

/-- Witness for `mape_recorded_formula` at actual 2, prediction 1. -/
theorem mape_recorded_formula_witness :
    (∀ t ∈ [(2 : ℚ)], npEps ≤ |t|) ∧
      mean_absolute_percentage_error [2] [1] * 100 = specMape [2] [1] :=
  ⟨by norm_num [npEps], mape_recorded_formula [2] [1] (by norm_num [npEps])⟩

/-- C7: flattening produces exactly one record per (authority, property-type)
entry — the output length is the sum over authorities of their property-type
counts — the records appear in nested order (authorities in structure order,
property types in inner order), and every record carries `mae` and `mape`
rounded to 4 decimal places and `forecast` rounded to 6 (each rounded value
times 10^digits is an integer). -/
theorem flatten_spec (nested : List (String × List (String × Metrics))) :
    (flatten_forecast_data nested).length
        = (nested.map (fun p => p.2.length)).sum
    ∧ flatten_forecast_data nested
        = (nested.flatMap (fun p => p.2.map (fun q => (p.1, q.1, q.2)))).map
            (fun t => coreRecord t.1 t.2.1 t.2.2)
    ∧ (∀ a pt m,
        (coreRecord a pt m).lookup "mae" = some (.num (pyRound 4 m.mae))
        ∧ (coreRecord a pt m).lookup "mape" = some (.num (pyRound 4 m.mape))
        ∧ (coreRecord a pt m).lookup "forecast"
            = some (.num (pyRound 6 m.forecast)))
    ∧ (∀ (n : ℕ) (x : ℚ), ∃ z : ℤ, pyRound n x * 10 ^ n = z) := by
  refine ⟨?_, ?_, ?_, ?_⟩
  · induction nested with
    | nil => rfl
    | cons p l ih =>
      simp only [flatten_forecast_data, List.flatMap_cons, List.map_cons,
        List.sum_cons, List.length_append, List.length_map] at *
      omega
  · induction nested with
    | nil => rfl
    | cons p l ih =>
      simp only [flatten_forecast_data, List.flatMap_cons, List.map_append,
        List.map_map] at *
      rw [ih]
      rfl
  · intro a pt m
    refine ⟨rfl, rfl, rfl⟩
  · intro n x
    refine ⟨roundHalfEven (x * 10 ^ n), ?_⟩
    unfold pyRound
    rw [div_mul_cancel₀]
    positivity

theorem length_shift (k : ℕ) (xs : List ℚ) : (shift k xs).length = xs.length := by
  simp [shift]

theorem shift_getD (k i : ℕ) (xs : List ℚ) (hi : i < xs.length) :
    (shift k xs).getD i none
      = if k ≤ i then some (xs.getD (i - k) 0) else none := by
  unfold shift
  rw [List.getD_eq_getElem?_getD, List.getElem?_take_of_lt hi]
  by_cases hk : k ≤ i
  · rw [if_pos hk,
      List.getElem?_append_right (by simpa using hk), List.getElem?_map]
    have h2 : i - (List.replicate k (none : Option ℚ)).length < xs.length := by
      simpa using lt_of_le_of_lt (Nat.sub_le _ _) hi
    rw [List.getElem?_eq_getElem h2]
    simp [List.getD_eq_getElem?_getD, List.getElem?_eq_getElem,
      lt_of_le_of_lt (Nat.sub_le i k) hi]
  · rw [if_neg hk,
      List.getElem?_append_left (by simpa using Nat.lt_of_not_le hk)]
    simp [List.getElem?_replicate, Nat.lt_of_not_le hk]

theorem mkLagRows_getElem? (rows : List Row) (i : ℕ) :
    (mkLagRows rows)[i]? = rows[i]?.map (fun r =>
      { base := r
        lagval := fun c k => (shift k (colVals rows c)).getD i none : LagRow }) := by
  unfold mkLagRows
  rw [List.getElem?_map, List.getElem?_enum]
  cases rows[i]? <;> rfl

theorem length_colVals (rows : List Row) (c : String) :
    (colVals rows c).length = rows.length := by
  simp [colVals]

/-- C3: in every lag-augmented sub-series, for every listed column and every
lag offset k in the catalogue, the lag-k column of row i holds the column's
value at row i−k when k ≤ i and is missing when i < k; every row with index
below 3 is excluded from the `dropna` output, and the retained rows are
exactly those of the augmented frame with no missing lag value. -/
theorem lag_construction_spec (rows : List Row) (pt c : String) (k i : ℕ)
    (lr : LagRow) (hc : c ∈ all_features pt) (hk : k ∈ lag_offsets)
    (h : (mkLagRows rows)[i]? = some lr) :
    (k ≤ i → lr.lagval c k = some ((colVals rows c).getD (i - k) 0))
    ∧ (i < k → lr.lagval c k = none)
    ∧ (i < 3 → lr ∉ addLagsDropna (all_features pt) rows)
    ∧ (∀ lr2 : LagRow, lr2 ∈ addLagsDropna (all_features pt) rows ↔
        lr2 ∈ mkLagRows rows ∧ isCompleteRow (all_features pt) lr2 = true) := by
  clear hc hk
  have hi : i < rows.length := by
    by_contra hge
    rw [mkLagRows_getElem?, List.getElem?_eq_none (by omega)] at h
    simp at h
  rw [mkLagRows_getElem?, List.getElem?_eq_getElem hi] at h
  simp only [Option.map_some'] at h
  have h' := Option.some.inj h
  have hlag : ∀ c2 k2, lr.lagval c2 k2
      = (shift k2 (colVals rows c2)).getD i none := by
    intro c2 k2
    rw [← h']
  have hval : ∀ c2 k2, lr.lagval c2 k2
      = if k2 ≤ i then some ((colVals rows c2).getD (i - k2) 0) else none := by
    intro c2 k2
    rw [hlag, shift_getD]
    rw [length_colVals]
    exact hi
  refine ⟨?_, ?_, ?_, ?_⟩
  · intro hki
    rw [hval, if_pos hki]
  · intro hik
    rw [hval, if_neg (by omega)]
  · intro hi3 hmem
    have hcpi : lr.lagval "cpi_rate" 3 = none := by
      rw [hval, if_neg (by omega)]
    have := (List.mem_filter.mp hmem).2
    simp only [isCompleteRow, List.all_eq_true] at this
    have h3 := this "cpi_rate" (by simp [all_features, feature_cols]) 3
      (by simp [lag_offsets])
    rw [hcpi] at h3
    simp at h3
  · intro lr2
    exact List.mem_filter

def c3Rows : List Row :=
  [{ period := 0, val := fun _ => 10 }, { period := 1, val := fun _ => 11 },
   { period := 2, val := fun _ => 12 }, { period := 3, val := fun _ => 13 }]

def c3LagRow : LagRow :=
  { base := { period := 3, val := fun _ => 13 }
    lagval := fun c k => (shift k (colVals c3Rows c)).getD 3 none }

/-- Witness for `lag_construction_spec`: on a concrete 4-row series, row 3's
lag-2 value of the target column is the row-1 value. -/
theorem lag_construction_spec_witness :
    c3LagRow.lagval "SemiDetachedIndex" 2
      = some ((colVals c3Rows "SemiDetachedIndex").getD 1 0) :=
  (lag_construction_spec c3Rows "SemiDetachedIndex" "SemiDetachedIndex" 2 3
    c3LagRow (by simp [all_features]) (by simp [lag_offsets])
    (by rw [mkLagRows_getElem?]; rfl)).1 (by omega)

/-! The competition fold, characterised -/

/-- The pure best-tracking fold over a list of evaluated candidates. -/
def selFold (cur : Option Best) (cands : List Best) : Option Best :=
  cands.foldl (fun acc b => if beats b.mape acc then some b else acc) cur

/-- The lag frame of one window. -/
def laggedOf (c : Ctx) (rows : List Row) (lastDate : ℤ) (tw : TimeWindow) :
    List LagRow :=
  addLagsDropna (all_features c.propType) (filterWindow lastDate tw rows)

/-- The feature matrix of one window. -/
def xMat (c : Ctx) (rows : List Row) (lastDate : ℤ) (tw : TimeWindow) :
    List (List ℚ) :=
  (laggedOf c rows lastDate tw).map (xRow (all_features c.propType))

/-- The target column of one window. -/
def yCol (c : Ctx) (rows : List Row) (lastDate : ℤ) (tw : TimeWindow) : List ℚ :=
  (laggedOf c rows lastDate tw).map (fun lr => lr.base.val c.propType)

/-- `train_size = len(df_time) - forecast_horizon`. -/
def trainSizeOf (c : Ctx) (rows : List Row) (lastDate : ℤ) (tw : TimeWindow) : ℕ :=
  (laggedOf c rows lastDate tw).length - c.horizon

/-- Whether a model family's artifact is absent, so the family is trained and
evaluated rather than skipped. -/
def notCached (c : Ctx) (tw : TimeWindow) (n : String) : Bool :=
  !(c.store.contains (modelFileName c.modelDir c.authority c.propType n tw))

/-- The candidates one window contributes to the competition: the model
families whose artifact is absent, in catalogue order, each evaluated on the
window's holdout split. -/
def windowCands (c : Ctx) (rows : List Row) (lastDate : ℤ) (tw : TimeWindow) :
    List Best :=
  (model_names.filter (notCached c tw)).map
    (mkCand c tw
      ((xMat c rows lastDate tw).take (trainSizeOf c rows lastDate tw))
      ((yCol c rows lastDate tw).take (trainSizeOf c rows lastDate tw))
      ((xMat c rows lastDate tw).drop (trainSizeOf c rows lastDate tw))
      ((yCol c rows lastDate tw).drop (trainSizeOf c rows lastDate tw)))

/-- All evaluated candidates of one (authority, property-type) pair, windows
in catalogue order and model families in priority order within a window. -/
def allCands (c : Ctx) (rows : List Row) (lastDate : ℤ) : List Best :=
  time_windows.flatMap (windowCands c rows lastDate)

/-- Both data-floor checks of one window iteration pass. -/
def windowChecksPass (c : Ctx) (rows : List Row) (lastDate : ℤ)
    (tw : TimeWindow) : Prop :=
  4 ≤ (filterWindow lastDate tw rows).length
    ∧ c.horizon + 1 ≤ (laggedOf c rows lastDate tw).length

instance (c : Ctx) (rows : List Row) (lastDate : ℤ) (tw : TimeWindow) :
    Decidable (windowChecksPass c rows lastDate tw) := by
  unfold windowChecksPass
  infer_instance

theorem foldl_stepModel_eq (c : Ctx) (tw : TimeWindow) (xTr : List (List ℚ))
    (yTr : List ℚ) (xTe : List (List ℚ)) (yTe : List ℚ) (names : List String)
    (cur : Option Best) :
    names.foldl (stepModel c tw xTr yTr xTe yTe) cur
      = selFold cur ((names.filter (notCached c tw)).map
          (mkCand c tw xTr yTr xTe yTe)) := by
  induction names generalizing cur with
  | nil => rfl
  | cons n ns ih =>
    by_cases hn : c.store.contains
        (modelFileName c.modelDir c.authority c.propType n tw) = true
    · rw [List.foldl_cons]
      have hstep : stepModel c tw xTr yTr xTe yTe cur n = cur := by
        unfold stepModel
        rw [if_pos hn]
      have hfilter : (n :: ns).filter (notCached c tw)
          = ns.filter (notCached c tw) := by
        rw [List.filter_cons]
        simp only [notCached, hn, Bool.not_true]
        simp
      rw [hstep, hfilter, ih]
    · rw [List.foldl_cons]
      have hstep : stepModel c tw xTr yTr xTe yTe cur n
          = if beats (mkCand c tw xTr yTr xTe yTe n).mape cur
              then some (mkCand c tw xTr yTr xTe yTe n) else cur := by
        unfold stepModel
        rw [if_neg hn]
      have hfilter : (n :: ns).filter (notCached c tw)
          = n :: ns.filter (notCached c tw) := by
        rw [List.filter_cons]
        simp only [notCached, Bool.eq_false_iff.mpr hn, Bool.not_false]
        simp
      rw [hstep, hfilter, List.map_cons]
      rw [show selFold cur (mkCand c tw xTr yTr xTe yTe n
            :: (ns.filter (notCached c tw)).map (mkCand c tw xTr yTr xTe yTe))
          = selFold (if beats (mkCand c tw xTr yTr xTe yTe n).mape cur
              then some (mkCand c tw xTr yTr xTe yTe n) else cur)
            ((ns.filter (notCached c tw)).map (mkCand c tw xTr yTr xTe yTe))
        from rfl]
      exact ih _

theorem processWindow_ok (c : Ctx) (rows : List Row) (lastDate : ℤ)
    (cur : Option Best) (tw : TimeWindow)
    (h : windowChecksPass c rows lastDate tw) :
    processWindow c rows lastDate cur tw
      = .ok (selFold cur (windowCands c rows lastDate tw)) := by
  obtain ⟨h1, h2⟩ := h
  rw [laggedOf] at h2
  simp only [processWindow]
  rw [if_neg (by omega), if_neg (by omega)]
  rw [foldl_stepModel_eq]
  simp only [windowCands, xMat, yCol, trainSizeOf, laggedOf]

theorem processWindow_insufficient (c : Ctx) (rows : List Row) (lastDate : ℤ)
    (cur : Option Best) (tw : TimeWindow)
    (h : ¬ windowChecksPass c rows lastDate tw) :
    processWindow c rows lastDate cur tw = .error (.notEnoughData tw)
      ∨ processWindow c rows lastDate cur tw
          = .error (.notEnoughDataAfterLag tw) := by
  rw [windowChecksPass, laggedOf, not_and_or] at h
  simp only [processWindow]
  by_cases h4 : (filterWindow lastDate tw rows).length < 4
  · left
    rw [if_pos h4]
  · right
    rw [if_neg h4]
    have hlag : (addLagsDropna (all_features c.propType)
        (filterWindow lastDate tw rows)).length < c.horizon + 1 := by
      rcases h with h | h <;> omega
    rw [if_pos hlag]

theorem loopWindows_ok_eq (c : Ctx) (rows : List Row) (lastDate : ℤ)
    (tws : List TimeWindow) (cur : Option Best)
    (h : ∀ tw ∈ tws, windowChecksPass c rows lastDate tw) :
    loopWindows c rows lastDate cur tws
      = .ok (selFold cur (tws.flatMap (windowCands c rows lastDate))) := by
  induction tws generalizing cur with
  | nil => rfl
  | cons tw rest ih =>
    rw [loopWindows, processWindow_ok c rows lastDate cur tw
      (h tw (List.mem_cons_self _ _))]
    show loopWindows c rows lastDate
        (selFold cur (windowCands c rows lastDate tw)) rest = _
    rw [ih _ (fun t ht => h t (List.mem_cons_of_mem _ ht))]
    rw [List.flatMap_cons]
    simp [selFold, List.foldl_append]

theorem loopWindows_ok_imp_checks (c : Ctx) (rows : List Row) (lastDate : ℤ)
    (tws : List TimeWindow) (cur : Option Best) (r : Option Best)
    (h : loopWindows c rows lastDate cur tws = .ok r) :
    ∀ tw ∈ tws, windowChecksPass c rows lastDate tw := by
  induction tws generalizing cur with
  | nil => simp
  | cons tw rest ih =>
    intro t ht
    rw [loopWindows] at h
    by_cases hc : windowChecksPass c rows lastDate tw
    · rcases List.mem_cons.mp ht with rfl | hrest
      · exact hc
      · rw [processWindow_ok c rows lastDate cur tw hc] at h
        exact ih _ h t hrest
    · rcases processWindow_insufficient c rows lastDate cur tw hc with he | he <;>
        rw [he] at h <;> exact absurd h (by simp)

theorem selFold_some (cands : List Best) (a b : Best)
    (h : selFold (some a) cands = some b) :
    b.mape ≤ a.mape ∧ (∀ x ∈ cands, b.mape ≤ x.mape)
      ∧ (b = a ∨ ∃ l₁ l₂, cands = l₁ ++ b :: l₂ ∧ b.mape < a.mape
          ∧ ∀ x ∈ l₁, b.mape < x.mape) := by
  induction cands generalizing a with
  | nil =>
    obtain rfl : a = b := by simpa [selFold] using h
    exact ⟨le_refl _, by simp, Or.inl rfl⟩
  | cons x l ih =>
    have hstep : selFold (some a) (x :: l)
        = selFold (if x.mape < a.mape then some x else some a) l := by
      simp only [selFold, List.foldl_cons, beats]
      by_cases hx : x.mape < a.mape
      · rw [if_pos (by simpa using hx), if_pos hx]
      · rw [if_neg (by simpa using hx), if_neg hx]
    rw [hstep] at h
    by_cases hx : x.mape < a.mape
    · rw [if_pos hx] at h
      obtain ⟨h1, h2, h3⟩ := ih x h
      refine ⟨le_of_lt (lt_of_le_of_lt h1 hx), ?_, ?_⟩
      · intro z hz
        rcases List.mem_cons.mp hz with rfl | hz2
        · exact h1
        · exact h2 z hz2
      · rcases h3 with rfl | ⟨l₁, l₂, rfl, hba, hall⟩
        · exact Or.inr ⟨[], l, rfl, hx, by simp⟩
        · refine Or.inr ⟨x :: l₁, l₂, rfl, lt_trans hba hx, ?_⟩
          intro z hz
          rcases List.mem_cons.mp hz with rfl | hz2
          · exact hba
          · exact hall z hz2
    · rw [if_neg hx] at h
      obtain ⟨h1, h2, h3⟩ := ih a h
      push_neg at hx
      refine ⟨h1, ?_, ?_⟩
      · intro z hz
        rcases List.mem_cons.mp hz with rfl | hz2
        · exact le_trans h1 hx
        · exact h2 z hz2
      · rcases h3 with rfl | ⟨l₁, l₂, rfl, hba, hall⟩
        · exact Or.inl rfl
        · refine Or.inr ⟨x :: l₁, l₂, rfl, hba, ?_⟩
          intro z hz
          rcases List.mem_cons.mp hz with rfl | hz2
          · exact lt_of_lt_of_le hba hx
          · exact hall z hz2

theorem selFold_none_firstMin (cands : List Best) (b : Best)
    (h : selFold none cands = some b) :
    ∃ l₁ l₂, cands = l₁ ++ b :: l₂ ∧ (∀ x ∈ l₁, b.mape < x.mape)
      ∧ (∀ x ∈ cands, b.mape ≤ x.mape) := by
  cases cands with
  | nil => exact absurd h (by simp [selFold])
  | cons x l =>
    have hstep : selFold none (x :: l) = selFold (some x) l := by
      simp [selFold, beats]
    rw [hstep] at h
    obtain ⟨h1, h2, h3⟩ := selFold_some l x b h
    rcases h3 with rfl | ⟨l₁, l₂, rfl, hba, hall⟩
    · refine ⟨[], l, rfl, by simp, ?_⟩
      intro z hz
      rcases List.mem_cons.mp hz with rfl | hz2
      · exact le_refl _
      · exact h2 z hz2
    · refine ⟨x :: l₁, l₂, rfl, ?_, ?_⟩
      · intro z hz
        rcases List.mem_cons.mp hz with rfl | hz2
        · exact hba
        · exact hall z hz2
      · intro z hz
        rcases List.mem_cons.mp hz with rfl | hz2
        · exact le_of_lt hba
        · exact h2 z hz2

theorem selFold_of_no_beat (l : List Best) (b : Best)
    (h : ∀ x ∈ l, ¬ x.mape < b.mape) : selFold (some b) l = some b := by
  induction l with
  | nil => rfl
  | cons x xs ih =>
    have hstep : selFold (some b) (x :: xs) = selFold (some b) xs := by
      simp only [selFold, List.foldl_cons, beats]
      rw [if_neg (by simpa using h x (List.mem_cons_self _ _))]
    rw [hstep]
    exact ih (fun z hz => h z (List.mem_cons_of_mem _ hz))

/-- `runProp` with the last row known: the outer match discharged. -/
theorem runProp_getLast (c : Ctx) (rows : List Row) (today : String)
    (lastRow : Row) (lastDate : ℤ) (hlast : rows.getLast? = some lastRow)
    (hper : lastRow.period = lastDate) :
    runProp c rows today =
      match loopWindows c rows lastDate none time_windows with
      | .error e => .error e
      | .ok none => .error .noValidModel
      | .ok (some b) =>
        match (addLagsDropna (all_features c.propType) rows).getLast? with
        | none => .error .indexError
        | some lastData =>
          .ok { mae := b.mae, mape := b.mape,
                forecast := c.oracle.fitPredict b.name b.xTrain b.yTrain
                  (xRow (all_features c.propType) lastData),
                forecast_date := formatMMYYYY (lastDate + 1),
                best_model := b.name, best_time_window := b.tw,
                model_file := modelFileName c.modelDir c.authority c.propType
                  b.name b.tw,
                training_date := today } := by
  subst hper
  unfold runProp
  rw [hlast]

theorem windowCands_shape (c : Ctx) (rows : List Row) (lastDate : ℤ)
    (tw : TimeWindow) (cand : Best) (h : cand ∈ windowCands c rows lastDate tw) :
    cand.tw = tw ∧ notCached c tw cand.name = true := by
  obtain ⟨n, hn, rfl⟩ := List.mem_map.mp h
  exact ⟨rfl, (List.mem_filter.mp hn).2⟩

/-- C1: when the window loop of one (authority, property-type) competition
succeeds with a selected best, that best is the first candidate of the
evaluated-candidate sequence — windows iterated in catalogue order
[5, 10, 15, 20, "all"] and, within a window, model families in the fixed
order TabPFN, CatBoost, LightGBM — to attain the minimum recorded MAPE:
every earlier candidate has a strictly larger MAPE and no candidate has a
smaller one, so ties never displace the incumbent. -/
theorem best_selection_first_min (c : Ctx) (rows : List Row) (lastDate : ℤ)
    (b : Best)
    (h : loopWindows c rows lastDate none time_windows = .ok (some b)) :
    ∃ l₁ l₂, allCands c rows lastDate = l₁ ++ b :: l₂
      ∧ (∀ x ∈ l₁, b.mape < x.mape)
      ∧ (∀ x ∈ allCands c rows lastDate, b.mape ≤ x.mape) := by
  have hchecks := loopWindows_ok_imp_checks c rows lastDate time_windows none _ h
  rw [loopWindows_ok_eq c rows lastDate time_windows none hchecks] at h
  exact selFold_none_firstMin _ _ (Except.ok.inj h)

/-- C2: a (window, model-family) combination whose artifact file already
exists at the expected path is skipped entirely — it contributes no
evaluated candidate and a successful competition never selects it — and when
every combination of the pair is cached this way (each window passing its
data checks, so each combination is indeed reached and skipped), the engine
raises the no-valid-model error for the pair instead of returning a
result. -/
theorem cache_skip_spec (c : Ctx) (rows : List Row) (lastDate : ℤ)
    (name : String) (tw : TimeWindow)
    (hcached : c.store.contains
      (modelFileName c.modelDir c.authority c.propType name tw) = true) :
    (∀ cand ∈ windowCands c rows lastDate tw, cand.name ≠ name)
    ∧ (∀ b, loopWindows c rows lastDate none time_windows = .ok (some b) →
        ¬ (b.name = name ∧ b.tw = tw))
    ∧ (∀ (today : String) (lastRow : Row), rows.getLast? = some lastRow →
        lastRow.period = lastDate →
        (∀ tw2 ∈ time_windows, windowChecksPass c rows lastDate tw2) →
        (∀ tw2 ∈ time_windows, ∀ n ∈ model_names, c.store.contains
          (modelFileName c.modelDir c.authority c.propType n tw2) = true) →
        runProp c rows today = .error .noValidModel) := by
  have hno : ∀ cand ∈ windowCands c rows lastDate tw, cand.name ≠ name := by
    intro cand hc he
    have := (windowCands_shape c rows lastDate tw cand hc).2
    rw [he] at this
    simp only [notCached, hcached, Bool.not_true] at this
    exact absurd this (by simp)
  refine ⟨hno, ?_, ?_⟩
  · intro b hb ⟨hbn, hbtw⟩
    have hchecks := loopWindows_ok_imp_checks c rows lastDate time_windows none _ hb
    rw [loopWindows_ok_eq c rows lastDate time_windows none hchecks] at hb
    obtain ⟨l₁, l₂, hdec, -, -⟩ :=
      selFold_none_firstMin _ _ (Except.ok.inj hb)
    have hmem : b ∈ time_windows.flatMap (windowCands c rows lastDate) := by
      rw [hdec]
      exact List.mem_append_right _ (List.mem_cons_self _ _)
    obtain ⟨tw2, -, hbw⟩ := List.mem_flatMap.mp hmem
    have htw2 : b.tw = tw2 := (windowCands_shape c rows lastDate tw2 b hbw).1
    rw [hbtw] at htw2
    subst htw2
    exact hno b hbw hbn
  · intro today lastRow hlast hper hchecks hall
    subst hper
    have hempty : ∀ tw2 ∈ time_windows,
        windowCands c rows lastRow.period tw2 = [] := by
      intro tw2 ht2
      unfold windowCands
      rw [List.filter_eq_nil_iff.mpr, List.map_nil]
      intro n hn
      simp only [notCached, hall tw2 ht2 n hn, Bool.not_true]
      simp
    have hflat : time_windows.flatMap (windowCands c rows lastRow.period)
        = [] := by
      rw [List.flatMap_eq_nil_iff]
      exact hempty
    rw [runProp_getLast c rows today lastRow lastRow.period hlast rfl]
    rw [loopWindows_ok_eq c rows lastRow.period time_windows none hchecks,
      hflat]
    rfl

/-- Which errors are the "insufficient data" conditions (the two
`Not enough data` raises at lines 93-96 and 104-107). -/
def TrainError.isInsufficientData : TrainError → Bool
  | .notEnoughData _ => true
  | .notEnoughDataAfterLag _ => true
  | _ => false

theorem loopWindows_insufficient (c : Ctx) (rows : List Row) (lastDate : ℤ)
    (tws : List TimeWindow) (cur : Option Best)
    (h : ∃ tw ∈ tws, ¬ windowChecksPass c rows lastDate tw) :
    ∃ e, loopWindows c rows lastDate cur tws = .error e
      ∧ e.isInsufficientData = true := by
  induction tws generalizing cur with
  | nil => simp at h
  | cons tw rest ih =>
    by_cases hc : windowChecksPass c rows lastDate tw
    · have hrest : ∃ t ∈ rest, ¬ windowChecksPass c rows lastDate t := by
        obtain ⟨t, ht, hnt⟩ := h
        rcases List.mem_cons.mp ht with rfl | ht2
        · exact absurd hc hnt
        · exact ⟨t, ht2, hnt⟩
      obtain ⟨e, he, hins⟩ := ih _ hrest
      refine ⟨e, ?_, hins⟩
      rw [loopWindows, processWindow_ok c rows lastDate cur tw hc]
      exact he
    · rcases processWindow_insufficient c rows lastDate cur tw hc with he | he
      · exact ⟨.notEnoughData tw, by rw [loopWindows, he], rfl⟩
      · exact ⟨.notEnoughDataAfterLag tw, by rw [loopWindows, he], rfl⟩

theorem runProps_ok_each (oracle : Oracle) (store : List String)
    (modelDir : String) (horizon : ℕ) (today authority : String)
    (rows : List Row) (pts : List String) (ms : List (String × Metrics))
    (h : runProps oracle store modelDir horizon today authority rows pts
      = .ok ms) :
    ∀ pt ∈ pts, ∃ m,
      runProp (mkCtx oracle store modelDir authority pt horizon) rows today
        = .ok m := by
  induction pts generalizing ms with
  | nil => simp
  | cons pt rest ih =>
    intro t ht
    rw [runProps] at h
    rcases hr : runProp (mkCtx oracle store modelDir authority pt horizon)
        rows today with e | m
    · rw [hr] at h
      exact absurd h (by simp)
    · rw [hr] at h
      rcases List.mem_cons.mp ht with rfl | ht2
      · exact ⟨m, hr⟩
      · rcases hr2 : runProps oracle store modelDir horizon today authority
            rows rest with e2 | ms2
        · rw [hr2] at h
          exact absurd h (by simp)
        · exact ih ms2 hr2 t ht2

theorem runAuthorities_ok_each (oracle : Oracle) (store : List String)
    (modelDir : String) (horizon : ℕ) (today : String) (data : List ARow)
    (as : List String) (ns : List (String × List (String × Metrics)))
    (h : runAuthorities oracle store modelDir horizon today data as = .ok ns) :
    ∀ a ∈ as, ∀ pt ∈ property_types, ∃ m,
      runProp (mkCtx oracle store modelDir a pt horizon)
        (sortByPeriod ((data.filter (fun r => r.region = a)).map ARow.toRow))
        today = .ok m := by
  induction as generalizing ns with
  | nil => simp
  | cons a rest ih =>
    intro t ht
    rw [runAuthorities] at h
    rcases hr : runProps oracle store modelDir horizon today a
        (sortByPeriod ((data.filter (fun r => r.region = a)).map ARow.toRow))
        property_types with e | props
    · rw [hr] at h
      exact absurd h (by simp)
    · rw [hr] at h
      rcases List.mem_cons.mp ht with rfl | ht2
      · exact runProps_ok_each _ _ _ _ _ _ _ _ _ hr
      · rcases hr2 : runAuthorities oracle store modelDir horizon today data rest
            with e2 | ns2
        · rw [hr2] at h
          exact absurd h (by simp)
        · exact ih ns2 hr2 t ht2

/-- C4: whenever some window of an (authority, property-type) pair fails a
data floor — the filtered series has fewer than 4 rows, or the lagged series
has fewer than forecast_horizon + 1 rows — the engine raises an
insufficient-data error from that pair's computation; and the run as a whole
never silently skips such a pair: a run that returns records had every
(authority, property-type) pair succeed.  An authority with only 3 months of
data always trips the first floor (its filtered windows have at most 3
rows). -/
theorem insufficient_data_spec (c : Ctx) (rows : List Row) (today : String)
    (lastRow : Row) (hlast : rows.getLast? = some lastRow)
    (hbad : ∃ tw ∈ time_windows,
      ¬ windowChecksPass c rows lastRow.period tw) :
    (∃ e, runProp c rows today = .error e ∧ e.isInsufficientData = true)
    ∧ (∀ (oracle : Oracle) (store : List String) (data : List ARow)
        (horizon : ℕ) (modelDir today2 : String)
        (recs : List (List (String × Value))),
        train_and_forecast_by_authority oracle store data horizon modelDir
            today2 = .ok recs →
        ∀ a ∈ uniqueFirst (data.map (fun r => r.region)),
          ∀ pt ∈ property_types, ∃ m,
            runProp (mkCtx oracle store modelDir a pt horizon)
              (sortByPeriod ((data.filter (fun r => r.region = a)).map
                ARow.toRow)) today2 = .ok m) := by
  constructor
  · obtain ⟨e, he, hins⟩ :=
      loopWindows_insufficient c rows lastRow.period time_windows none hbad
    refine ⟨e, ?_, hins⟩
    rw [runProp_getLast c rows today lastRow lastRow.period hlast rfl, he]
  · intro oracle store data horizon modelDir today2 recs h
    unfold train_and_forecast_by_authority at h
    by_cases hd : data.isEmpty
    · rw [if_pos hd] at h
      exact absurd h (by simp)
    · rw [if_neg hd] at h
      rcases hr : runAuthorities oracle store modelDir horizon today2 data
          (uniqueFirst (data.map (fun r => r.region))) with e | ns
      · rw [hr] at h
        exact absurd h (by simp)
      · exact runAuthorities_ok_each _ _ _ _ _ _ _ _ hr

/-- C10: whenever the model competition for a pair succeeds — the window
loop returns a selected best — the full authority series lagged over all
feature columns and stripped of incomplete rows has at least
forecast_horizon + 1 rows, hence a most recent fully-lagged row exists and
the final forecast step returns a result instead of an index error. -/
theorem forecast_step_safe (c : Ctx) (rows : List Row) (today : String)
    (lastRow : Row) (hlast : rows.getLast? = some lastRow) (b : Best)
    (hloop : loopWindows c rows lastRow.period none time_windows
      = .ok (some b)) :
    c.horizon + 1 ≤ (addLagsDropna (all_features c.propType) rows).length
    ∧ (addLagsDropna (all_features c.propType) rows).getLast?.isSome = true
    ∧ ∃ m, runProp c rows today = .ok m := by
  have hchecks := loopWindows_ok_imp_checks c rows lastRow.period
    time_windows none _ hloop
  have hnone := hchecks none (by simp [time_windows])
  rw [windowChecksPass, laggedOf] at hnone
  have hlen : c.horizon + 1
      ≤ (addLagsDropna (all_features c.propType) rows).length := hnone.2
  have hne : addLagsDropna (all_features c.propType) rows ≠ [] := by
    intro hnil
    rw [hnil] at hlen
    simp at hlen
  have hsome : (addLagsDropna (all_features c.propType) rows).getLast?.isSome
      = true := by
    rw [List.getLast?_isSome]
    exact hne
  obtain ⟨lastData, hld⟩ := Option.isSome_iff_exists.mp hsome
  refine ⟨hlen, hsome, ?_⟩
  rw [runProp_getLast c rows today lastRow lastRow.period hlast rfl, hloop, hld]
  exact ⟨_, rfl⟩

/-! A concrete run for witnesses: one authority, constant unit data,
five consecutive months (January-May 2024 as month indices), a constant
oracle predicting 2. -/

def wVal : String → ℚ := fun _ => 1

def wOracle : Oracle := ⟨fun _ _ _ _ => 2⟩

def wRows : List Row :=
  [⟨24288, wVal⟩, ⟨24289, wVal⟩, ⟨24290, wVal⟩, ⟨24291, wVal⟩, ⟨24292, wVal⟩]

def wCtx (pt : String) : Ctx := mkCtx wOracle [] "models" "A" pt 1

def w63 : List ℚ := List.replicate 63 1

def wCand (pt : String) (tw : TimeWindow) (n : String) : Best :=
  mkCand (wCtx pt) tw [w63] [1] [w63] [1] n

def wBest (pt : String) : Best := wCand pt (some 5) "TabPFN"

theorem wAllCands (pt : String) :
    allCands (wCtx pt) wRows 24292
      = [wCand pt (some 5) "TabPFN", wCand pt (some 5) "CatBoost",
         wCand pt (some 5) "LightGBM",
         wCand pt (some 10) "TabPFN", wCand pt (some 10) "CatBoost",
         wCand pt (some 10) "LightGBM",
         wCand pt (some 15) "TabPFN", wCand pt (some 15) "CatBoost",
         wCand pt (some 15) "LightGBM",
         wCand pt (some 20) "TabPFN", wCand pt (some 20) "CatBoost",
         wCand pt (some 20) "LightGBM",
         wCand pt none "TabPFN", wCand pt none "CatBoost",
         wCand pt none "LightGBM"] := rfl

theorem wMape100 : mean_absolute_percentage_error [1] [2] * 100 = 100 := by
  have hmax : (1 : ℚ) ⊔ npEps = 1 := max_eq_left (by norm_num [npEps])
  norm_num [mean_absolute_percentage_error, hmax]

theorem wCand_mape (pt : String) (tw : TimeWindow) (n : String) :
    (wCand pt tw n).mape = 100 := by
  show mean_absolute_percentage_error [1] [2] * 100 = 100
  exact wMape100

theorem selFold_cons_none (b : Best) (l : List Best) :
    selFold none (b :: l) = selFold (some b) l := by
  simp [selFold, beats]

theorem wChecks (pt : String) :
    ∀ tw ∈ time_windows, windowChecksPass (wCtx pt) wRows 24292 tw := by
  intro tw htw
  fin_cases htw <;>
    exact ⟨by show (4 : ℕ) ≤ 5; norm_num, by show (2 : ℕ) ≤ 2; norm_num⟩

theorem wSelFold (pt : String) :
    selFold none (allCands (wCtx pt) wRows 24292) = some (wBest pt) := by
  rw [wAllCands]
  rw [selFold_cons_none]
  apply selFold_of_no_beat
  intro x hx
  have hx100 : x.mape = 100 := by
    simp only [List.mem_cons, List.not_mem_nil, or_false] at hx
    rcases hx with rfl | rfl | rfl | rfl | rfl | rfl | rfl | rfl | rfl |
      rfl | rfl | rfl | rfl | rfl <;> exact wCand_mape ..
  rw [hx100]
  show ¬ (100 : ℚ) < (wBest pt).mape
  rw [show (wBest pt).mape = 100 from wCand_mape ..]
  exact lt_irrefl _

theorem wLoop (pt : String) :
    loopWindows (wCtx pt) wRows 24292 none time_windows
      = .ok (some (wBest pt)) := by
  rw [loopWindows_ok_eq _ _ _ _ _ (wChecks pt)]
  rw [show time_windows.flatMap (windowCands (wCtx pt) wRows 24292)
      = allCands (wCtx pt) wRows 24292 from rfl]
  rw [wSelFold]

/-- Witness for `best_selection_first_min`: the concrete run selects
TabPFN on the 5-year window — the first of its fifteen equal-MAPE
candidates. -/
theorem best_selection_first_min_witness :
    ∃ l₁ l₂, allCands (wCtx "SemiDetachedIndex") wRows 24292
        = l₁ ++ wBest "SemiDetachedIndex" :: l₂
      ∧ (∀ x ∈ l₁, (wBest "SemiDetachedIndex").mape < x.mape)
      ∧ (∀ x ∈ allCands (wCtx "SemiDetachedIndex") wRows 24292,
          (wBest "SemiDetachedIndex").mape ≤ x.mape) :=
  best_selection_first_min _ _ _ _ (wLoop "SemiDetachedIndex")

/-- Witness for `forecast_step_safe`: the concrete run's full lagged series
keeps two rows and the forecast step returns a result. -/
theorem forecast_step_safe_witness :
    (wCtx "SemiDetachedIndex").horizon + 1
      ≤ (addLagsDropna (all_features "SemiDetachedIndex") wRows).length
    ∧ (addLagsDropna (all_features "SemiDetachedIndex")
        wRows).getLast?.isSome = true
    ∧ ∃ m, runProp (wCtx "SemiDetachedIndex") wRows "2026-02-03" = .ok m :=
  forecast_step_safe (wCtx "SemiDetachedIndex") wRows "2026-02-03"
    ⟨24292, wVal⟩ rfl (wBest "SemiDetachedIndex") (wLoop "SemiDetachedIndex")

/-! Witnesses for the cache-skip and insufficient-data claims -/

def wStoreAll : List String :=
  time_windows.flatMap (fun tw =>
    model_names.map (fun n =>
      modelFileName "models" "A" "SemiDetachedIndex" n tw))

def wCtxAll : Ctx := mkCtx wOracle wStoreAll "models" "A" "SemiDetachedIndex" 1

theorem wChecksAll :
    ∀ tw ∈ time_windows, windowChecksPass wCtxAll wRows 24292 tw := by
  intro tw htw
  fin_cases htw <;>
    exact ⟨by show (4 : ℕ) ≤ 5; norm_num, by show (2 : ℕ) ≤ 2; norm_num⟩

/-- Witness for `cache_skip_spec`: with every artifact of the pair already on
disk, the concrete run raises the no-valid-model error. -/
theorem cache_skip_spec_witness :
    runProp wCtxAll wRows "2026-02-03" = .error .noValidModel :=
  (cache_skip_spec wCtxAll wRows 24292 "TabPFN" (some 5) (by decide)).2.2
    "2026-02-03" ⟨24292, wVal⟩ rfl rfl wChecksAll (by decide)

def wRows3 : List Row := [⟨24288, wVal⟩, ⟨24289, wVal⟩, ⟨24290, wVal⟩]

/-- Witness for `insufficient_data_spec`: an authority with three months of
data raises an insufficient-data error. -/
theorem insufficient_data_spec_witness :
    ∃ e, runProp (wCtx "SemiDetachedIndex") wRows3 "2026-02-03" = .error e
      ∧ e.isInsufficientData = true :=
  (insufficient_data_spec (wCtx "SemiDetachedIndex") wRows3 "2026-02-03"
    ⟨24290, wVal⟩ rfl
    ⟨some 5, by decide, fun hcp => absurd hcp.1 (by decide)⟩).1

/-! The concrete run end to end, for the training-date and artifact
claims -/

def wData : List ARow :=
  [⟨"A", 24288, wVal⟩, ⟨"A", 24289, wVal⟩, ⟨"A", 24290, wVal⟩,
   ⟨"A", 24291, wVal⟩, ⟨"A", 24292, wVal⟩]

def wLag4 : LagRow :=
  ⟨⟨24292, wVal⟩, fun c k => (shift k (colVals wRows c)).getD 4 none⟩

def wMetrics (pt : String) : Metrics :=
  { mae := (wBest pt).mae, mape := (wBest pt).mape, forecast := 2,
    forecast_date := "06/2024",
    best_model := "TabPFN", best_time_window := some 5,
    model_file := modelFileName "models" "A" pt "TabPFN" (some 5),
    training_date := "2026-02-03" }

theorem wRunProp (pt : String) :
    runProp (mkCtx wOracle [] "models" "A" pt 1) wRows "2026-02-03"
      = .ok (wMetrics pt) := by
  show runProp (wCtx pt) wRows "2026-02-03" = .ok (wMetrics pt)
  rw [runProp_getLast (wCtx pt) wRows "2026-02-03" ⟨24292, wVal⟩ 24292 rfl rfl]
  rw [wLoop pt]
  rfl

theorem wRunProps :
    runProps wOracle [] "models" 1 "2026-02-03" "A" wRows property_types
      = .ok [("SemiDetachedIndex", wMetrics "SemiDetachedIndex"),
             ("DetachedIndex", wMetrics "DetachedIndex"),
             ("TerracedIndex", wMetrics "TerracedIndex"),
             ("FlatIndex", wMetrics "FlatIndex")] := by
  simp only [property_types, runProps, wRunProp]

theorem wSorted :
    sortByPeriod ((wData.filter (fun r => r.region = "A")).map ARow.toRow)
      = wRows := by
  show sortByPeriod wRows = wRows
  exact List.mergeSort_of_sorted (by decide)

def wRecs : List (List (String × Value)) :=
  [coreRecord "A" "SemiDetachedIndex" (wMetrics "SemiDetachedIndex"),
   coreRecord "A" "DetachedIndex" (wMetrics "DetachedIndex"),
   coreRecord "A" "TerracedIndex" (wMetrics "TerracedIndex"),
   coreRecord "A" "FlatIndex" (wMetrics "FlatIndex")]

theorem wDriver :
    train_and_forecast_by_authority wOracle [] wData 1 "models" "2026-02-03"
      = .ok wRecs := by
  unfold train_and_forecast_by_authority
  rw [if_neg (by decide)]
  rw [show uniqueFirst (wData.map (fun r => r.region)) = ["A"] from rfl]
  rw [runAuthorities, wSorted, wRunProps, runAuthorities]
  rfl

/-- C8: in the concrete successful run every record returned by the engine
carries the forecast date one calendar month after the series' last observed
period, formatted "MM/YYYY" — but no returned record carries a training-date
field: the engine computes the run's calendar date into the nested metrics,
and the flatten step of `app/core/training.py` drops it; the flatten of
`app/services/training.py` (which the engine does not call) would emit it. -/
theorem training_date_dropped :
    train_and_forecast_by_authority wOracle [] wData 1 "models" "2026-02-03"
      = .ok wRecs
    ∧ (∀ rec ∈ wRecs,
        rec.lookup "forecast_date" = some (.str (formatMMYYYY (24292 + 1)))
        ∧ rec.lookup "training_date" = none)
    ∧ formatMMYYYY (24292 + 1) = "06/2024"
    ∧ (wMetrics "SemiDetachedIndex").training_date = "2026-02-03"
    ∧ (servicesRecord "A" "SemiDetachedIndex"
        (wMetrics "SemiDetachedIndex")).lookup "training_date"
        = some (.str "2026-02-03") :=
  ⟨wDriver, by decide, rfl, rfl, rfl⟩

/-- C9: the concrete run trains model families and selects a best, yet its
artifact-write set is empty — the training loop contains no save call — so
the selected best's artifact path is absent from the model directory after
the run, and a later run's existence check at that key fails: the
combination would be evaluated again, not skipped. -/
theorem artifacts_never_saved :
    train_and_forecast_by_authority wOracle [] wData 1 "models" "2026-02-03"
      = .ok wRecs
    ∧ artifactWrites wOracle [] wData 1 "models" "2026-02-03" = []
    ∧ (wMetrics "SemiDetachedIndex").model_file
        = "models/A_SemiDetachedIndex_TabPFN_5_model.pkl"
    ∧ ([] ++ artifactWrites wOracle [] wData 1 "models"
          "2026-02-03").contains
        (wMetrics "SemiDetachedIndex").model_file = false
    ∧ notCached (wCtx "SemiDetachedIndex") (some 5) "TabPFN" = true
    ∧ wBest "SemiDetachedIndex"
        ∈ allCands (wCtx "SemiDetachedIndex") wRows 24292 :=
  ⟨wDriver, rfl, rfl, rfl, rfl, by
    rw [wAllCands]
    exact List.mem_cons_self _ _⟩

end HPI
